import Mathlib

/-!
Verification development for the medio DICOM backend
(src/medio/backends/pdcm_io.py, class PdcmIO).

The Python source is shallowly embedded:
* a pydicom dataset is an association list of DICOM tags to values;
* the pixel buffers of the write path are modelled as numpy arrays with an
  explicit dtype and a flat row-major data buffer;
* the reconstructed volumes of the read path are modelled by their
  multi-index semantics (rank, shape, and a value function on indices);
* filesystem reads are modelled by passing the enumerated directory
  contents and the dcmread parsing function explicitly;
* Python exceptions become an error type returned through Except, named
  after the error taxonomy of the specification (the source raises
  FileNotFoundError for an empty directory and AttributeError for a
  deletion of an absent tag; the spec names these EmptyInputError and
  MissingTagError respectively).

Geometry is computed over the rationals: the through-slice column of the
affine is the difference of the first two slice positions (direction times
spacing), so no square roots are needed.
-/

namespace Pdcm

open scoped List

/-- DICOM tags used by the backend.  Tags outside this set are carried by
the catch-all constructor. -/
inductive Tag where
  | InstanceNumber
  | SamplesPerPixel
  | ImagePositionPatient
  | ImageOrientationPatient
  | PixelSpacing
  | RescaleSlope
  | RescaleIntercept
  | PixelData
  | Rows
  | Columns
  | BitsAllocated
  | PixelRepresentation
  | NumberOfFrames
  | PerFrameFunctionalGroupsSequence
  | Other (name : String)
deriving DecidableEq

/-- Stringified form of a tag, used for the header snapshot
(the source builds the header with str(key) as the dictionary key). -/
def Tag.toName : Tag → String
  | .InstanceNumber => "InstanceNumber"
  | .SamplesPerPixel => "SamplesPerPixel"
  | .ImagePositionPatient => "ImagePositionPatient"
  | .ImageOrientationPatient => "ImageOrientationPatient"
  | .PixelSpacing => "PixelSpacing"
  | .RescaleSlope => "RescaleSlope"
  | .RescaleIntercept => "RescaleIntercept"
  | .PixelData => "PixelData"
  | .Rows => "Rows"
  | .Columns => "Columns"
  | .BitsAllocated => "BitsAllocated"
  | .PixelRepresentation => "PixelRepresentation"
  | .NumberOfFrames => "NumberOfFrames"
  | .PerFrameFunctionalGroupsSequence => "PerFrameFunctionalGroupsSequence"
  | .Other n => n

/-- Values stored in a dataset element: integers (IS/US values), lists of
rationals (DS multi-values such as positions and spacings), strings, and
raw byte buffers (pixel data). -/
inductive TagValue where
  | intVal (i : Int)
  | ratListVal (xs : List ℚ)
  | strVal (s : String)
  | bytesVal (bs : List Nat)
deriving DecidableEq

/-- Parsed DICOM dataset: an association list from tags to values, as
produced by pydicom.dcmread.  Real datasets have at most one element per
tag; the operations below implement the map semantics directly. -/
structure Dataset where
  tags : List (Tag × TagValue)
deriving DecidableEq

instance : Inhabited Dataset := ⟨⟨[]⟩⟩

/-- Lookup of the value of a tag (first matching entry). -/
def lookupTag (t : Tag) : List (Tag × TagValue) → Option TagValue
  | [] => none
  | (k, v) :: r => if k = t then some v else lookupTag t r

/-- Value of a tag in a dataset, none when absent. -/
def Dataset.getTag (ds : Dataset) (t : Tag) : Option TagValue :=
  lookupTag t ds.tags

/-- Removal of every entry of a tag from an association list (a map holds
the tag at most once, so this is the deletion of the Python del statement). -/
def removeTag (t : Tag) : List (Tag × TagValue) → List (Tag × TagValue)
  | [] => []
  | (k, v) :: r => if k = t then removeTag t r else (k, v) :: removeTag t r

/-- Dataset with every entry of a tag removed. -/
def Dataset.removeAll (ds : Dataset) (t : Tag) : Dataset :=
  ⟨removeTag t ds.tags⟩

/-- Replacement of the first entry of a tag, appending when absent
(assignment to a dataset attribute in pydicom). -/
def setTagList (t : Tag) (v : TagValue) : List (Tag × TagValue) → List (Tag × TagValue)
  | [] => [(t, v)]
  | (k, w) :: r => if k = t then (t, v) :: r else (k, w) :: setTagList t v r

/-- Dataset with the value of a tag replaced or added. -/
def Dataset.setTag (ds : Dataset) (t : Tag) (v : TagValue) : Dataset :=
  ⟨setTagList t v ds.tags⟩


/-- Error taxonomy of the backend, following the names the specification gives
the exceptions the source raises: the source raises FileNotFoundError with
an empty-directory message when a directory glob matches no file
(EmptyInputError in the spec taxonomy), AttributeError when a del statement
targets an absent dataset attribute (MissingTagError), and the series
combiner raises on inconsistent or missing spatial tags (GeometryError). -/
inductive PdcmError where
  | emptyInput (msg : String)
  | emptySeries (msg : String)
  | missingTag (t : Tag)
  | geometry (msg : String)
  | codec (msg : String)
deriving DecidableEq

/-- Numpy integer dtypes used for DICOM pixel buffers. -/
inductive DType where
  | uint8
  | int8
  | uint16
  | int16
deriving DecidableEq

/-- Value of an integer reduced into the representable range of a dtype
(numpy integer casts wrap modulo the bit width). -/
def dtypeWrap : DType → Int → Int
  | .uint8, x => x % 256
  | .int8, x => (x + 128) % 256 - 128
  | .uint16, x => x % 65536
  | .int16, x => (x + 32768) % 65536 - 32768

/-- Little-endian byte encoding of one stored element. -/
def encodeElem : DType → Int → List Nat
  | .uint8, x => [(x % 256).toNat]
  | .int8, x => [(x % 256).toNat]
  | .uint16, x => [((x % 65536).toNat) % 256, ((x % 65536).toNat) / 256]
  | .int16, x => [((x % 65536).toNat) % 256, ((x % 65536).toNat) / 256]

/-- Signed or unsigned little-endian decoding of a raw byte buffer into
stored element values. -/
def decodeBytes : DType → List Nat → List Int
  | .uint8, bs => bs.map (fun b => (b : Int))
  | .int8, bs => bs.map (fun b => (b : Int) - (if 128 ≤ b then 256 else 0))
  | .uint16, bs => decode16u bs
  | .int16, bs => (decode16u bs).map (fun x => x - (if 32768 ≤ x then 65536 else 0))
where
  /-- Unsigned 16-bit little-endian words of a byte list. -/
  decode16u : List Nat → List Int
    | b0 :: b1 :: r => ((b0 : Int) + 256 * (b1 : Int)) :: decode16u r
    | _ => []

/-- Numpy array as passed to the write path: a dtype and a flat row-major
element buffer together with the logical shape. -/
structure NpArray where
  shape : List Nat
  dtype : DType
  data : List Int
deriving DecidableEq

/-- Model of numpy astype with copy=False: every element is cast in place
(wrapped into the target dtype), the buffer order and the shape are kept. -/
def NpArray.astype (a : NpArray) (d : DType) : NpArray :=
  { shape := a.shape, dtype := d, data := a.data.map (dtypeWrap d) }

/-- Model of numpy tobytes: the raw little-endian buffer of the array. -/
def NpArray.tobytes (a : NpArray) : List Nat :=
  a.data.flatMap (encodeElem a.dtype)

/-- N-dimensional array of the read path, modelled by its multi-index
semantics: a rank, the axis lengths, and the sample value at each
multi-index (an index is a function from axis position to coordinate). -/
structure NDArray where
  rank : Nat
  shape : Nat → Nat
  val : (Nat → Nat) → Int

instance : Inhabited NDArray := ⟨⟨0, fun _ => 1, fun _ => 0⟩⟩

/-- Coordinate shift that skips the removed axis position d. -/
def shiftDown (d j : Nat) : Nat := if j < d then j else j - 1

/-- Coordinate shift that makes room for the inserted axis position s. -/
def shiftUp (s m : Nat) : Nat := if m < s then m else m + 1

/-- Axis map of numpy moveaxis from source axis s to destination axis d:
moveIdx s d sends a position of the result array to the axis of the input
array that now lives there (d is sent to s, the other positions keep their
relative order). -/
def moveIdx (s d j : Nat) : Nat :=
  if j = d then s else shiftUp s (shiftDown d j)


/-- Model of numpy moveaxis: the axis at position source of the input is
relocated to position dest of the result; shapes and values are
transported along the axis map. -/
def moveaxis (a : NDArray) (source dest : Nat) : NDArray :=
  { rank := a.rank
    shape := fun j => a.shape (moveIdx source dest j)
    val := fun idx => a.val (fun i => idx (moveIdx dest source i)) }


/-- Row-major flat offset of a multi-index for a given shape. -/
def flatOffset (shape : List Nat) (idx : Nat → Nat) : Nat :=
  (List.range shape.length).foldl (fun acc i => acc * shape.getD i 1 + idx i) 0

/-- Array built from a flat row-major buffer and a shape. -/
def fromFlat (shape : List Nat) (data : List Int) : NDArray :=
  { rank := shape.length
    shape := fun i => shape.getD i 1
    val := fun idx => data.getD (flatOffset shape idx) 0 }

/-- Stack of a list of arrays along a new leading axis (the series
combiner stacks the slice pixel arrays in list order). -/
def stackArrays (arrs : List NDArray) : NDArray :=
  { rank := (arrs.headD default).rank + 1
    shape := fun i => if i = 0 then arrs.length else (arrs.headD default).shape (i - 1)
    val := fun idx => (arrs.getD (idx 0) default).val (fun i => idx (i + 1)) }

/-- Three-dimensional rational vector. -/
def Vec3 : Type := ℚ × ℚ × ℚ

instance : DecidableEq Vec3 := by
  unfold Vec3
  infer_instance

/-- Componentwise difference of two vectors. -/
def sub3 (a b : Vec3) : Vec3 := (a.1 - b.1, a.2.1 - b.2.1, a.2.2 - b.2.2)

/-- Scalar multiple of a vector. -/
def smul3 (c : ℚ) (a : Vec3) : Vec3 := (c * a.1, c * a.2.1, c * a.2.2)

/-- Cross product of two vectors. -/
def cross3 (a b : Vec3) : Vec3 :=
  (a.2.1 * b.2.2 - a.2.2 * b.2.1,
   a.2.2 * b.1 - a.1 * b.2.2,
   a.1 * b.2.1 - a.2.1 * b.1)

/-- Voxel-to-world affine: the three columns of the 3x3 block and the
origin (the fourth row of the 4x4 matrix is constantly 0 0 0 1). -/
structure Affine where
  col0 : Vec3
  col1 : Vec3
  col2 : Vec3
  origin : Vec3
deriving DecidableEq

/-- Determinant of the 3x3 block of an affine. -/
def det3 (a : Affine) : ℚ :=
  a.col0.1 * (a.col1.2.1 * a.col2.2.2 - a.col1.2.2 * a.col2.2.1)
    - a.col1.1 * (a.col0.2.1 * a.col2.2.2 - a.col0.2.2 * a.col2.2.1)
    + a.col2.1 * (a.col0.2.1 * a.col1.2.2 - a.col0.2.2 * a.col1.2.1)

/-- Identity-orientation affine with unit spacing and origin zero, the
default-affine fallback of the multi-frame unpacker. -/
def defaultAffine : Affine :=
  { col0 := (1, 0, 0), col1 := (0, 1, 0), col2 := (0, 0, 1), origin := (0, 0, 0) }

/-- Decoded three-element rational tag value (an ImagePositionPatient). -/
def ratTriple : Option TagValue → Option Vec3
  | some (.ratListVal [x, y, z]) => some (x, y, z)
  | _ => none

/-- Decoded six-element orientation tag value: the row and column
direction cosines of ImageOrientationPatient. -/
def ratSix : Option TagValue → Option (Vec3 × Vec3)
  | some (.ratListVal [a, b, c, d, e, f]) => some ((a, b, c), (d, e, f))
  | _ => none

/-- Decoded two-element rational tag value (a PixelSpacing). -/
def ratPair : Option TagValue → Option (ℚ × ℚ)
  | some (.ratListVal [a, b]) => some (a, b)
  | _ => none

/-- Integer tag value read as a natural number with a default (pydicom
getattr with a fallback). -/
def Dataset.getNatD (ds : Dataset) (t : Tag) (dflt : Nat) : Nat :=
  match ds.getTag t with
  | some (.intVal i) => i.toNat
  | _ => dflt

/-- Raw pixel-data bytes of a dataset, empty when absent. -/
def Dataset.pixelBytes (ds : Dataset) : List Nat :=
  match ds.getTag .PixelData with
  | some (.bytesVal bs) => bs
  | _ => []

/-- Modelled from pydicom (external codec): the dtype of the decoded
pixel array, derived from BitsAllocated and PixelRepresentation; fails
when PixelData is absent or the combination is unsupported. -/
def datasetPixelDtype (ds : Dataset) : Except PdcmError DType :=
  if (ds.getTag .PixelData).isNone then .error (.missingTag .PixelData)
  else
    match ds.getTag .BitsAllocated, ds.getTag .PixelRepresentation with
    | some (.intVal 8), some (.intVal 0) => .ok .uint8
    | some (.intVal 8), some (.intVal 1) => .ok .int8
    | some (.intVal 16), some (.intVal 0) => .ok .uint16
    | some (.intVal 16), some (.intVal 1) => .ok .int16
    | _, _ => .error (.codec "unsupported pixel dtype")

/-- Decoded flat pixel buffer of a dataset (dtype defaulting to uint8
when the dtype tags are unusable; a dataset that reaches this point in a
successful read has passed the geometry validation). -/
def decodePixels (ds : Dataset) : List Int :=
  let d := match datasetPixelDtype ds with
    | .ok d => d
    | .error _ => .uint8
  decodeBytes d ds.pixelBytes

/-- Pixel array of one single-frame dataset: shape (rows, cols) for
grayscale, (rows, cols, samples) for multi-sample data. -/
def slicePixelArray (ds : Dataset) : NDArray :=
  let rows := ds.getNatD .Rows 0
  let cols := ds.getNatD .Columns 0
  let spp := ds.getNatD .SamplesPerPixel 1
  fromFlat (if 1 < spp then [rows, cols, spp] else [rows, cols]) (decodePixels ds)

/-- Geometry record of one slice: position, direction cosines, pixel
spacing and pixel shape, as validated by the series combiner. -/
structure SliceGeom where
  pos : Vec3
  rowDir : Vec3
  colDir : Vec3
  spacing : ℚ × ℚ
  rows : Nat
  cols : Nat
  spp : Nat
deriving DecidableEq

/-- Modelled from the spec (section 4.4): extraction of the geometry
record of one slice; the series combiner of the source is the external
dicom-numpy combine_slices, which the spec folds into the core.  A
missing geometry tag fails with a GeometryError, a missing pixel buffer
with a MissingTagError. -/
def sliceInfo (ds : Dataset) : Except PdcmError SliceGeom :=
  match ratTriple (ds.getTag .ImagePositionPatient) with
  | none => .error (.geometry "missing or malformed ImagePositionPatient")
  | some pos =>
    match ratSix (ds.getTag .ImageOrientationPatient) with
    | none => .error (.geometry "missing or malformed ImageOrientationPatient")
    | some dirs =>
      match ratPair (ds.getTag .PixelSpacing) with
      | none => .error (.geometry "missing or malformed PixelSpacing")
      | some sp =>
        match ds.getTag .Rows, ds.getTag .Columns with
        | some (.intVal r), some (.intVal c) =>
          if (ds.getTag .PixelData).isNone then .error (.missingTag .PixelData)
          else .ok { pos := pos, rowDir := dirs.1, colDir := dirs.2, spacing := sp,
                     rows := r.toNat, cols := c.toNat,
                     spp := ds.getNatD .SamplesPerPixel 1 }
        | _, _ => .error (.codec "missing or malformed Rows or Columns")

/-- Compatibility of two slices of one series: equal pixel shape, pixel
spacing and orientation (the tolerance-based float comparison of the
source library is exact equality over the rationals). -/
def compatibleSlices (g0 g : SliceGeom) : Prop :=
  g.rowDir = g0.rowDir ∧ g.colDir = g0.colDir ∧ g.spacing = g0.spacing ∧
    g.rows = g0.rows ∧ g.cols = g0.cols ∧ g.spp = g0.spp

instance (g0 g : SliceGeom) : Decidable (compatibleSlices g0 g) := by
  unfold compatibleSlices
  infer_instance

/-- Modelled from the spec (section 4.2): the affine reconstructor.  The
in-plane columns are the direction cosines scaled by the pixel spacing;
the through-slice column is the difference of the first two slice
positions when at least two slices are present (direction scaled by the
recovered spacing), else the cross product of the in-plane directions
with unit spacing; the origin is the first slice position. -/
def reconstructAffine (g0 : SliceGeom) (positions : List Vec3) : Affine :=
  { col0 := smul3 g0.spacing.1 g0.rowDir
    col1 := smul3 g0.spacing.2 g0.colDir
    col2 := match positions with
      | _ :: p1 :: _ => sub3 p1 g0.pos
      | _ => cross3 g0.rowDir g0.colDir
    origin := g0.pos }

/-- Geometry records of a list of slices, failing at the first slice
whose record extraction fails. -/
def sliceInfoList : List Dataset → Except PdcmError (List SliceGeom)
  | [] => .ok []
  | d :: r =>
    match sliceInfo d with
    | .error e => .error e
    | .ok g =>
      match sliceInfoList r with
      | .error e => .error e
      | .ok gs => .ok (g :: gs)

/-- Modelled from the spec (section 4.4): the series combiner
(dicom-numpy combine_slices).  Validates that all slices share pixel
shape, spacing and orientation, computes the affine from the slice
geometry in list order, requires it to be invertible, and stacks the
slice pixel arrays along a new leading axis in list order. -/
def combine_slices (slices : List Dataset) : Except PdcmError (NDArray × Affine) :=
  match slices with
  | [] => .error (.emptySeries "combine_slices received an empty list")
  | s0 :: rest =>
    match sliceInfo s0 with
    | .error e => .error e
    | .ok g0 =>
      match sliceInfoList rest with
      | .error e => .error e
      | .ok gs =>
        if ∀ g ∈ gs, compatibleSlices g0 g then
          let aff := reconstructAffine g0 (g0.pos :: gs.map SliceGeom.pos)
          if det3 aff = 0 then .error (.geometry "degenerate affine")
          else .ok (stackArrays ((s0 :: rest).map slicePixelArray), aff)
        else .error (.geometry "inconsistent slice geometry")


/-- Metadata value returned by a read: the affine, the fixed coordinate
system tag, and the optional header snapshot. -/
structure MetaData where
  affine : Affine
  coord_sys : String
  header : Option (List (String × TagValue))
deriving DecidableEq

/-- Coordinate-system constant of the backend (PdcmIO.coord_sys). -/
def coord_sys : String := "itk"

/-- Construction of the metadata from an affine (PdcmIO.aff2meta); the
header starts out unset. -/
def aff2meta (affine : Affine) : MetaData :=
  { affine := affine, coord_sys := coord_sys, header := none }

/-- Header snapshot of a dataset: every parsed tag entry keyed by the
stringified tag, as built by the dictionary comprehension of the source. -/
def headerSnapshot (ds : Dataset) : List (String × TagValue) :=
  ds.tags.map (fun p => (Tag.toName p.1, p.2))

/-- Value of ds.SamplesPerPixel: pydicom attribute access raises
(a MissingTagError in the spec taxonomy) when the tag is absent. -/
def samplesPerPixelE (ds : Dataset) : Except PdcmError Nat :=
  match ds.getTag .SamplesPerPixel with
  | some (.intVal n) => .ok n.toNat
  | some _ => .error (.codec "SamplesPerPixel has an unexpected value")
  | none => .error (.missingTag .SamplesPerPixel)

/-- Modelled from the spec (section 4.1): classification of a parsed
dataset (convert_ds and the MultiFrameFileDataset class of the repo
module medio.metadata.pdcm_ds, which is not under src/): a dataset is
MultiFrame exactly when it carries per-frame functional groups, a pure
function of the dataset content. -/
inductive DatasetKind where
  | SingleFrame
  | MultiFrame
deriving DecidableEq

/-- Classification of a dataset, see DatasetKind. -/
def classify (ds : Dataset) : DatasetKind :=
  if (ds.getTag .PerFrameFunctionalGroupsSequence).isSome then .MultiFrame
  else .SingleFrame

/-- Sort key of the directory read: ds.get of InstanceNumber with
default 0 when the tag is absent. -/
def instKey (ds : Dataset) : Int :=
  match ds.getTag .InstanceNumber with
  | some (.intVal i) => i
  | _ => 0

/-- Stable insertion of an element into a list by a key: the element goes
in front of the first element with a key not smaller than its own, so an
earlier element never jumps over a later one with an equal key. -/
def insertStable (key : Dataset → Int) (a : Dataset) : List Dataset → List Dataset
  | [] => [a]
  | b :: l => if key a ≤ key b then a :: b :: l else b :: insertStable key a l

/-- Stable ascending sort by a key, the semantics of Python list.sort
with a key function (Timsort is stable). -/
def sortStable (key : Dataset → Int) : List Dataset → List Dataset
  | [] => []
  | a :: l => insertStable key a (sortStable key l)

/-- Modelled from the spec (section 4.3): the multi-frame unpacker
(repo module medio.backends.pdcm_unpack_ds, which is not under src/).
The frame count and pixel shape come from the shared pixel-data tags and
the flat buffer is reshaped to (frames, rows, cols [, samples]); when the
geometry tags are present the affine comes from the affine reconstructor
with the single-slice through-slice fallback, otherwise the
allow_default_affine flag selects the identity default affine or a
GeometryError. -/
def unpack_dataset (ds : Dataset) (allow_default_affine : Bool) :
    Except PdcmError (NDArray × Affine) :=
  let frames := ds.getNatD .NumberOfFrames 1
  let rows := ds.getNatD .Rows 0
  let cols := ds.getNatD .Columns 0
  let spp := ds.getNatD .SamplesPerPixel 1
  let vol := fromFlat
    (if 1 < spp then [frames, rows, cols, spp] else [frames, rows, cols])
    (decodePixels ds)
  match ratTriple (ds.getTag .ImagePositionPatient),
        ratSix (ds.getTag .ImageOrientationPatient),
        ratPair (ds.getTag .PixelSpacing) with
  | some pos, some dirs, some sp =>
    let aff : Affine :=
      { col0 := smul3 sp.1 dirs.1
        col1 := smul3 sp.2 dirs.2
        col2 := cross3 dirs.1 dirs.2
        origin := pos }
    if det3 aff = 0 then .error (.geometry "degenerate affine")
    else .ok (vol, aff)
  | _, _, _ =>
    if allow_default_affine then .ok (vol, defaultAffine)
    else .error (.geometry "missing geometry tags, default affine not permitted")

/-- Channel layout normalizer (PdcmIO.move_channels_axis): a no-op unless
the image is channeled (samples_per_pixel greater than 1) and a channels
axis was requested, otherwise numpy moveaxis from source to channels_axis. -/
def move_channels_axis (array : NDArray) (samples_per_pixel : Nat) (source : Nat)
    (channels_axis : Option Nat) : NDArray :=
  match channels_axis with
  | some d => if 1 < samples_per_pixel then moveaxis array source d else array
  | none => array

/-- Single dicom file read (PdcmIO.read_dcm_file): parse, classify,
unpack or combine a one-element series, build the metadata, attach the
header snapshot when requested, and normalize the channel layout using
ds.SamplesPerPixel. -/
def read_dcm_file {α : Type} (filename : α) (dcmread : α → Dataset) (header : Bool)
    (allow_default_affine : Bool) (channels_axis : Option Nat) :
    Except PdcmError (NDArray × MetaData) :=
  let ds := dcmread filename
  match (if classify ds = .MultiFrame then unpack_dataset ds allow_default_affine
         else combine_slices [ds]) with
  | .error e => .error e
  | .ok (img, affine) =>
    let metadata := aff2meta affine
    let metadata := if header then { metadata with header := some (headerSnapshot ds) }
      else metadata
    match samplesPerPixelE ds with
    | .error e => .error e
    | .ok spp => .ok (move_channels_axis img spp 0 channels_axis, metadata)

/-- Combination stage of the directory read: the already sorted slices
are combined (lines 60 to 63 of the source), the metadata is built from
the affine, and the channel layout is normalized using the first sorted
slice SamplesPerPixel attribute. -/
def dirCombine (slices : List Dataset) (channels_axis : Option Nat) :
    Except PdcmError (NDArray × MetaData) :=
  match combine_slices slices with
  | .error e => .error e
  | .ok (img, affine) =>
    let metadata := aff2meta affine
    match samplesPerPixelE (slices.headD default) with
    | .error e => .error e
    | .ok spp => .ok (move_channels_axis img spp 0 channels_axis, metadata)

/-- Directory read (PdcmIO.read_dcm_dir): the enumerated files of the
directory are given as a list together with the dcmread parser; an empty
enumeration fails with the empty-directory error, otherwise every file is
parsed, the datasets are sorted by instance number with default 0, and
the sorted series is combined. -/
def read_dcm_dir {α : Type} (input_dir : String) (files : List α) (dcmread : α → Dataset)
    (channels_axis : Option Nat) : Except PdcmError (NDArray × MetaData) :=
  if files.length = 0 then
    .error (.emptyInput ("Received an empty directory: " ++ input_dir))
  else
    dirCombine (sortStable instKey (files.map dcmread)) channels_axis

/-- Input of the public read entry point: a directory (its glob function,
producing the enumerated files of a pattern, and its name used in error
messages) or a single file. -/
inductive InputPath (α : Type) where
  | dir (listFiles : String → List α) (name : String)
  | file (f : α)

/-- Public read entry point (PdcmIO.read_img): directories go to
read_dcm_dir with the globber only, files go to read_dcm_file with
header and allow_default_affine only. -/
def read_img {α : Type} (input_path : InputPath α) (dcmread : α → Dataset)
    (header : Bool) (channels_axis : Option Nat) (globber : String)
    (allow_default_affine : Bool) : Except PdcmError (NDArray × MetaData) :=
  match input_path with
  | .dir listFiles name => read_dcm_dir name (listFiles globber) dcmread channels_axis
  | .file f => read_dcm_file f dcmread header allow_default_affine channels_axis

/-- Modelled from the spec (sections 4.6 and 9): removal of the
intensity-transform tags of a multi-frame dataset via the removal
operation of the dataset itself
removal operation (MultiFrameFileDataset.del_intensity_trans of the repo
module medio.metadata.pdcm_ds, which is not under src/). -/
def del_intensity_trans (ds : Dataset) : Dataset :=
  (ds.removeAll .RescaleSlope).removeAll .RescaleIntercept

/-- Python del of a dataset attribute: fails with the missing-tag error
(AttributeError in the source) when the tag is absent. -/
def delTag (ds : Dataset) (t : Tag) : Except PdcmError Dataset :=
  match ds.getTag t with
  | some _ => .ok (ds.removeAll t)
  | none => .error (.missingTag t)

/-- Write path (PdcmIO.save_arr2dcm_file): the template dataset is read
and classified; unless keep_rescale, the rescale tags are deleted (the
removal operation of the dataset itself for a multi-frame template, two
unconditional del statements for a single-frame one); the image array is
cast to the requested dtype, defaulting to the dtype of the template
pixel data, and the cast buffer is substituted as the pixel data.  The
returned dataset is the one serialized to the output file.  The rescale
block (lines 90 to 95 of the source) is the rescaleStage below, followed
by the dtype resolution and the pixel-data substitution in
save_arr2dcm_file. -/
def rescaleStage (ds : Dataset) (keep_rescale : Bool) : Except PdcmError Dataset :=
  if keep_rescale then .ok ds
  else if classify ds = .MultiFrame then .ok (del_intensity_trans ds)
  else match delTag ds .RescaleSlope with
    | .error e => .error e
    | .ok ds1 => delTag ds1 .RescaleIntercept

/-- Resolution of the dtype of the write: the caller-supplied dtype when
given, else the dtype of the decoded template pixel data (line 96 of
the source). -/
def dtypeStage (ds : Dataset) (dtype : Option DType) : Except PdcmError DType :=
  match dtype with
  | some d => .ok d
  | none => datasetPixelDtype ds

def save_arr2dcm_file (template : Dataset) (img_arr : NpArray) (dtype : Option DType)
    (keep_rescale : Bool) : Except PdcmError Dataset :=
  match rescaleStage template keep_rescale with
  | .error e => .error e
  | .ok ds2 =>
    match dtypeStage ds2 dtype with
    | .error e => .error e
    | .ok d =>
      let arr := img_arr.astype d
      .ok (ds2.setTag .PixelData (.bytesVal arr.tobytes))

/-- Projection of a read result onto its affine, used to compare results
whose volume components are functions. -/
def affineOf (r : Except PdcmError (NDArray × MetaData)) : Option Affine :=
  match r with
  | .ok p => some p.2.affine
  | .error _ => none

/-- Concrete single-frame slice at position (0,0,0), instance number 5. -/
def sliceA : Dataset := ⟨[(.SamplesPerPixel, .intVal 1), (.Rows, .intVal 1),
  (.Columns, .intVal 1), (.ImagePositionPatient, .ratListVal [0, 0, 0]),
  (.ImageOrientationPatient, .ratListVal [1, 0, 0, 0, 1, 0]),
  (.PixelSpacing, .ratListVal [1, 1]), (.BitsAllocated, .intVal 8),
  (.PixelRepresentation, .intVal 0), (.PixelData, .bytesVal [7]),
  (.InstanceNumber, .intVal 5)]⟩

/-- Concrete single-frame slice at position (0,0,1), with the same
instance number 5 as sliceA (an instance-number tie). -/
def sliceB : Dataset := ⟨[(.SamplesPerPixel, .intVal 1), (.Rows, .intVal 1),
  (.Columns, .intVal 1), (.ImagePositionPatient, .ratListVal [0, 0, 1]),
  (.ImageOrientationPatient, .ratListVal [1, 0, 0, 0, 1, 0]),
  (.PixelSpacing, .ratListVal [1, 1]), (.BitsAllocated, .intVal 8),
  (.PixelRepresentation, .intVal 0), (.PixelData, .bytesVal [9]),
  (.InstanceNumber, .intVal 5)]⟩

/-- Concrete single-frame slice at position (0,0,1) with the distinct
instance number 7. -/
def sliceC : Dataset := ⟨[(.SamplesPerPixel, .intVal 1), (.Rows, .intVal 1),
  (.Columns, .intVal 1), (.ImagePositionPatient, .ratListVal [0, 0, 1]),
  (.ImageOrientationPatient, .ratListVal [1, 0, 0, 0, 1, 0]),
  (.PixelSpacing, .ratListVal [1, 1]), (.BitsAllocated, .intVal 8),
  (.PixelRepresentation, .intVal 0), (.PixelData, .bytesVal [9]),
  (.InstanceNumber, .intVal 7)]⟩

/-- Concrete single-frame template carrying both rescale tags. -/
def tmplFull : Dataset := ⟨[(.RescaleSlope, .intVal 1), (.RescaleIntercept, .intVal 0),
  (.BitsAllocated, .intVal 8), (.PixelRepresentation, .intVal 0),
  (.Rows, .intVal 1), (.Columns, .intVal 2),
  (.Other "PatientName", .strVal "anon"), (.PixelData, .bytesVal [1, 2])]⟩

/-- Concrete single-frame template lacking RescaleSlope. -/
def tmplNoSlope : Dataset := ⟨[(.RescaleIntercept, .intVal 0),
  (.BitsAllocated, .intVal 8), (.PixelRepresentation, .intVal 0),
  (.PixelData, .bytesVal [1, 2])]⟩

/-- Concrete single-frame template with RescaleSlope but no
RescaleIntercept. -/
def tmplNoIntercept : Dataset := ⟨[(.RescaleSlope, .intVal 1),
  (.BitsAllocated, .intVal 8), (.PixelRepresentation, .intVal 0),
  (.PixelData, .bytesVal [1, 2])]⟩

/-- Concrete image array for the write path. -/
def arrSmall : NpArray := ⟨[2], .int16, [300, -5]⟩

/-- Concrete rank-3 volume for the channel-axis theorems. -/
def volSmall : NDArray := ⟨3, fun _ => 2, fun _ => 7⟩

/-! Helper lemmas about the embedded operations. -/

theorem lookupTag_removeTag_self (t : Tag) (l : List (Tag × TagValue)) :
    lookupTag t (removeTag t l) = none := by
  induction l with
  | nil => rfl
  | cons p r ih =>
    obtain ⟨k, v⟩ := p
    by_cases h : k = t <;> simp [removeTag, lookupTag, h, ih]

theorem lookupTag_removeTag_ne (t u : Tag) (hne : u ≠ t) (l : List (Tag × TagValue)) :
    lookupTag u (removeTag t l) = lookupTag u l := by
  induction l with
  | nil => rfl
  | cons p r ih =>
    obtain ⟨k, v⟩ := p
    by_cases hk : k = t
    · subst hk
      simp [removeTag, lookupTag, Ne.symm hne, ih]
    · by_cases hu : k = u <;> simp [removeTag, lookupTag, hk, hu, ih, hne]

theorem getTag_removeAll_self (ds : Dataset) (t : Tag) :
    (ds.removeAll t).getTag t = none :=
  lookupTag_removeTag_self t ds.tags

theorem getTag_removeAll_ne (ds : Dataset) (t u : Tag) (hne : u ≠ t) :
    (ds.removeAll t).getTag u = ds.getTag u :=
  lookupTag_removeTag_ne t u hne ds.tags

theorem lookupTag_setTagList_self (t : Tag) (v : TagValue) (l : List (Tag × TagValue)) :
    lookupTag t (setTagList t v l) = some v := by
  induction l with
  | nil => simp [setTagList, lookupTag]
  | cons p r ih =>
    obtain ⟨k, w⟩ := p
    by_cases h : k = t <;> simp [setTagList, lookupTag, h, ih]

theorem lookupTag_setTagList_ne (t u : Tag) (v : TagValue) (hne : u ≠ t)
    (l : List (Tag × TagValue)) :
    lookupTag u (setTagList t v l) = lookupTag u l := by
  induction l with
  | nil => simp [setTagList, lookupTag, Ne.symm hne]
  | cons p r ih =>
    obtain ⟨k, w⟩ := p
    by_cases hk : k = t
    · subst hk
      simp [setTagList, lookupTag, Ne.symm hne, hne]
    · by_cases hu : k = u <;> simp [setTagList, lookupTag, hk, hu, ih, hne]

theorem getTag_setTag_self (ds : Dataset) (t : Tag) (v : TagValue) :
    (ds.setTag t v).getTag t = some v :=
  lookupTag_setTagList_self t v ds.tags

theorem getTag_setTag_ne (ds : Dataset) (t u : Tag) (v : TagValue) (hne : u ≠ t) :
    (ds.setTag t v).getTag u = ds.getTag u :=
  lookupTag_setTagList_ne t u v hne ds.tags
theorem moveIdx_self (s j : Nat) : moveIdx s s j = j := by
  simp only [moveIdx, shiftUp, shiftDown]
  split_ifs <;> omega

theorem moveIdx_moveIdx (s d j : Nat) : moveIdx s d (moveIdx d s j) = j := by
  simp only [moveIdx, shiftUp, shiftDown]
  split_ifs <;> omega

theorem moveIdx_dest (s d : Nat) : moveIdx s d d = s := by
  simp [moveIdx]

theorem moveIdx_mono (s d j1 j2 : Nat) (h1 : j1 ≠ d) (h2 : j2 ≠ d) (hlt : j1 < j2) :
    moveIdx s d j1 < moveIdx s d j2 := by
  simp only [moveIdx, shiftUp, shiftDown]
  split_ifs <;> omega

theorem moveIdx_bijective (s d : Nat) : Function.Bijective (moveIdx s d) :=
  ⟨Function.LeftInverse.injective (g := moveIdx d s) (fun j => moveIdx_moveIdx d s j),
   Function.RightInverse.surjective (g := moveIdx d s) (fun j => moveIdx_moveIdx s d j)⟩

theorem moveaxis_self (a : NDArray) (s : Nat) : moveaxis a s s = a := by
  cases a with
  | mk r sh v =>
    simp only [moveaxis, NDArray.mk.injEq]
    refine ⟨trivial, ?_, ?_⟩
    · funext j
      rw [moveIdx_self]
    · funext idx
      congr 1
      funext i
      rw [moveIdx_self]

theorem moveaxis_moveaxis (a : NDArray) (s d : Nat) :
    moveaxis (moveaxis a s d) d s = a := by
  cases a with
  | mk r sh v =>
    simp only [moveaxis, NDArray.mk.injEq]
    refine ⟨trivial, ?_, ?_⟩
    · funext j
      rw [moveIdx_moveIdx]
    · funext idx
      congr 1
      funext i
      rw [moveIdx_moveIdx]

/-! Lemmas about the stable sort of the directory read. -/

theorem insertStable_perm (key : Dataset → Int) (a : Dataset) (l : List Dataset) :
    insertStable key a l ~ a :: l := by
  induction l with
  | nil => simp [insertStable]
  | cons b t ih =>
    by_cases h : key a ≤ key b
    · simp [insertStable, h]
    · simp only [insertStable, if_neg h]
      exact (ih.cons b).trans (List.Perm.swap a b t)

theorem sortStable_perm (key : Dataset → Int) (l : List Dataset) :
    sortStable key l ~ l := by
  induction l with
  | nil => simp [sortStable]
  | cons a t ih => exact (insertStable_perm key a _).trans (ih.cons a)

theorem insertStable_pairwise (key : Dataset → Int) (a : Dataset) :
    ∀ l : List Dataset, l.Pairwise (fun x y => key x ≤ key y) →
      (insertStable key a l).Pairwise (fun x y => key x ≤ key y) := by
  intro l
  induction l with
  | nil =>
    intro _
    simp [insertStable]
  | cons b t ih =>
    intro h
    rw [List.pairwise_cons] at h
    by_cases hle : key a ≤ key b
    · simp only [insertStable, if_pos hle]
      refine List.Pairwise.cons ?_ (List.Pairwise.cons h.1 h.2)
      intro x hx
      rcases List.mem_cons.mp hx with rfl | hx2
      · exact hle
      · exact le_trans hle (h.1 x hx2)
    · simp only [insertStable, if_neg hle]
      refine List.Pairwise.cons ?_ (ih h.2)
      intro x hx
      have hx2 : x ∈ a :: t := (insertStable_perm key a t).subset hx
      rcases List.mem_cons.mp hx2 with rfl | hx3
      · omega
      · exact h.1 x hx3

theorem sortStable_pairwise (key : Dataset → Int) (l : List Dataset) :
    (sortStable key l).Pairwise (fun x y => key x ≤ key y) := by
  induction l with
  | nil => simp [sortStable]
  | cons a t ih => exact insertStable_pairwise key a _ ih

theorem filter_insertStable (key : Dataset → Int) (a : Dataset) (k : Int) :
    ∀ l : List Dataset,
      (insertStable key a l).filter (fun x => decide (key x = k)) =
        if key a = k then a :: l.filter (fun x => decide (key x = k))
        else l.filter (fun x => decide (key x = k)) := by
  intro l
  induction l with
  | nil => by_cases h : key a = k <;> simp [insertStable, h]
  | cons b t ih =>
    by_cases hle : key a ≤ key b
    · simp only [insertStable, if_pos hle, List.filter_cons]
      by_cases h : key a = k <;> simp [h]
    · simp only [insertStable, if_neg hle, List.filter_cons, ih]
      by_cases hb : key b = k
      · have ha : ¬key a = k := by omega
        simp [hb, ha]
      · by_cases h : key a = k <;> simp [hb, h]

theorem filter_sortStable (key : Dataset → Int) (l : List Dataset) (k : Int) :
    (sortStable key l).filter (fun x => decide (key x = k)) =
      l.filter (fun x => decide (key x = k)) := by
  induction l with
  | nil => rfl
  | cons a t ih =>
    simp only [sortStable, filter_insertStable, ih, List.filter_cons]
    by_cases h : key a = k <;> simp [h]

theorem sorted_nodup_unique (key : Dataset → Int) :
    ∀ l1 l2 : List Dataset, l1 ~ l2 →
      l1.Pairwise (fun x y => key x ≤ key y) →
      l2.Pairwise (fun x y => key x ≤ key y) →
      (l1.map key).Nodup → l1 = l2 := by
  intro l1
  induction l1 with
  | nil =>
    intro l2 hp _ _ _
    exact hp.nil_eq
  | cons a t1 ih =>
    intro l2 hp hs1 hs2 hn
    cases l2 with
    | nil => exact absurd hp.symm.nil_eq (by simp)
    | cons b t2 =>
      have hab : a = b := by
        have hbmem : b ∈ a :: t1 := hp.mem_iff.mpr (List.mem_cons_self b t2)
        have hamem : a ∈ b :: t2 := hp.mem_iff.mp (List.mem_cons_self a t1)
        rcases List.mem_cons.mp hbmem with h1 | h1
        · exact h1.symm
        · rcases List.mem_cons.mp hamem with h2 | h2
          · exact h2
          · exfalso
            have hk1 : key a ≤ key b := (List.pairwise_cons.mp hs1).1 b h1
            have hk2 : key b ≤ key a := (List.pairwise_cons.mp hs2).1 a h2
            have hkeq : key b = key a := le_antisymm hk2 hk1
            have hmem : key a ∈ t1.map key := List.mem_map.mpr ⟨b, h1, hkeq⟩
            rw [List.map_cons, List.nodup_cons] at hn
            exact hn.1 hmem
      subst hab
      have ht : t1 ~ t2 := hp.cons_inv
      have htl : t1 = t2 := by
        refine ih t2 ht (List.pairwise_cons.mp hs1).2 (List.pairwise_cons.mp hs2).2 ?_
        rw [List.map_cons, List.nodup_cons] at hn
        exact hn.2
      rw [htl]

theorem sortStable_canon (key : Dataset → Int) (l1 l2 : List Dataset)
    (hp : l1 ~ l2) (hn : (l1.map key).Nodup) :
    sortStable key l1 = sortStable key l2 := by
  refine sorted_nodup_unique key _ _
    ((sortStable_perm key l1).trans (hp.trans (sortStable_perm key l2).symm))
    (sortStable_pairwise key l1) (sortStable_pairwise key l2) ?_
  have hm : (sortStable key l1).map key ~ l1.map key := (sortStable_perm key l1).map key
  exact (hm.nodup_iff).mpr hn

/-! Lemmas about the combination stage and the write path. -/

theorem dirCombine_header (slices : List Dataset) (ca : Option Nat) :
    (dirCombine slices ca).map (fun r => r.2.header) =
      (dirCombine slices ca).map (fun _ => none) := by
  unfold dirCombine
  cases combine_slices slices with
  | error e => rfl
  | ok p =>
    cases samplesPerPixelE (slices.headD default) with
    | error e => rfl
    | ok spp => simp [aff2meta, Except.map]

theorem combine_slices_ok_volume (slices : List Dataset) (img : NDArray) (aff : Affine)
    (h : combine_slices slices = .ok (img, aff)) :
    img = stackArrays (slices.map slicePixelArray) := by
  cases slices with
  | nil => simp [combine_slices] at h
  | cons s0 rest =>
    simp only [combine_slices] at h
    cases hsi : sliceInfo s0 with
    | error e => rw [hsi] at h; simp at h
    | ok g0 =>
      rw [hsi] at h
      cases hsl : sliceInfoList rest with
      | error e => rw [hsl] at h; simp at h
      | ok gs =>
        rw [hsl] at h
        dsimp only at h
        by_cases hcomp : ∀ g ∈ gs, compatibleSlices g0 g
        · rw [if_pos hcomp] at h
          by_cases hdet : det3 (reconstructAffine g0 (g0.pos :: gs.map SliceGeom.pos)) = 0
          · simp only [hdet, if_pos] at h
            simp at h
          · rw [if_neg hdet] at h
            simp only [Except.ok.injEq, Prod.mk.injEq] at h
            exact h.1.symm
        · rw [if_neg hcomp] at h
          simp at h

theorem dirCombine_ok_stack (slices : List Dataset) (ca : Option Nat)
    (v : NDArray) (md : MetaData) (h : dirCombine slices ca = .ok (v, md)) :
    ∃ spp, samplesPerPixelE (slices.headD default) = .ok spp ∧
      v = move_channels_axis (stackArrays (slices.map slicePixelArray)) spp 0 ca := by
  unfold dirCombine at h
  cases hcs : combine_slices slices with
  | error e => rw [hcs] at h; simp at h
  | ok p =>
    rw [hcs] at h
    obtain ⟨img, aff⟩ := p
    cases hspp : samplesPerPixelE (slices.headD default) with
    | error e => rw [hspp] at h; simp at h
    | ok spp =>
      rw [hspp] at h
      simp only [Except.ok.injEq, Prod.mk.injEq] at h
      refine ⟨spp, rfl, ?_⟩
      rw [← h.1, combine_slices_ok_volume slices img aff hcs]

theorem datasetPixelDtype_removeAll (ds : Dataset) (t : Tag)
    (h1 : Tag.PixelData ≠ t) (h2 : Tag.BitsAllocated ≠ t)
    (h3 : Tag.PixelRepresentation ≠ t) :
    datasetPixelDtype (ds.removeAll t) = datasetPixelDtype ds := by
  unfold datasetPixelDtype
  rw [getTag_removeAll_ne ds t _ h1, getTag_removeAll_ne ds t _ h2,
    getTag_removeAll_ne ds t _ h3]

theorem getD_map_lt (f : Int → Int) :
    ∀ (l : List Int) (i : Nat), i < l.length →
      (l.map f).getD i 0 = f (l.getD i 0) := by
  intro l
  induction l with
  | nil =>
    intro i h
    simp at h
  | cons a t ih =>
    intro i h
    cases i with
    | zero => simp
    | succ n =>
      simp only [List.map_cons, List.getD_cons_succ]
      exact ih n (by simpa using h)

/-! Claim theorems. -/

/-- Claim C7: move_channels_axis returns the array unchanged when
samples_per_pixel is at most 1 or the channels axis is unspecified;
otherwise it relocates the source axis to the requested position as a
pure axis permutation (a bijective axis map sending the destination to
the source and strictly monotone elsewhere) that transports shapes and
every underlying sample value. -/
theorem claim_C7 (array : NDArray) (samples_per_pixel : Nat) (source : Nat)
    (channels_axis : Option Nat) :
    (samples_per_pixel ≤ 1 →
      move_channels_axis array samples_per_pixel source channels_axis = array) ∧
    (channels_axis = none →
      move_channels_axis array samples_per_pixel source channels_axis = array) ∧
    (∀ t : Nat, channels_axis = some t → 1 < samples_per_pixel →
      move_channels_axis array samples_per_pixel source channels_axis =
        moveaxis array source t ∧
      (moveaxis array source t).rank = array.rank ∧
      (∀ j, (moveaxis array source t).shape j = array.shape (moveIdx source t j)) ∧
      (∀ idx, (moveaxis array source t).val idx =
        array.val (fun i => idx (moveIdx t source i))) ∧
      moveIdx source t t = source ∧
      Function.Bijective (moveIdx source t) ∧
      (∀ j1 j2 : Nat, j1 ≠ t → j2 ≠ t → j1 < j2 →
        moveIdx source t j1 < moveIdx source t j2)) := by
  refine ⟨?_, ?_, ?_⟩
  · intro hle
    cases channels_axis with
    | none => rfl
    | some d =>
      simp only [move_channels_axis]
      rw [if_neg (by omega)]
  · intro h
    subst h
    rfl
  · intro t hca hgt
    subst hca
    simp only [move_channels_axis, if_pos hgt]
    exact ⟨trivial, rfl, fun j => rfl, fun idx => rfl, moveIdx_dest source t,
      moveIdx_bijective source t, fun j1 j2 h1 h2 h3 => moveIdx_mono source t j1 j2 h1 h2 h3⟩

/-- Witness for claim C7 at a concrete volume. -/
theorem claim_C7_witness :
    move_channels_axis volSmall 1 0 (some 2) = volSmall ∧
    move_channels_axis volSmall 3 0 none = volSmall ∧
    move_channels_axis volSmall 3 0 (some 2) = moveaxis volSmall 0 2 :=
  ⟨(claim_C7 volSmall 1 0 (some 2)).1 (by decide),
   (claim_C7 volSmall 3 0 none).2.1 rfl,
   ((claim_C7 volSmall 3 0 (some 2)).2.2 2 rfl (by decide)).1⟩

/-- Claim C8: for samples_per_pixel greater than 1, move_channels_axis
with equal source and target axes returns the input array, and moving
axes (a,b) and then (b,a) restores the original array. -/
theorem claim_C8 (array : NDArray) (samples_per_pixel : Nat)
    (h : 1 < samples_per_pixel) (a b : Nat) :
    move_channels_axis array samples_per_pixel a (some a) = array ∧
    move_channels_axis (move_channels_axis array samples_per_pixel a (some b))
      samples_per_pixel b (some a) = array := by
  constructor
  · simp only [move_channels_axis, if_pos h]
    exact moveaxis_self array a
  · simp only [move_channels_axis, if_pos h]
    exact moveaxis_moveaxis array a b

/-- Witness for claim C8 at a concrete volume. -/
theorem claim_C8_witness :
    move_channels_axis volSmall 3 0 (some 0) = volSmall ∧
    move_channels_axis (move_channels_axis volSmall 3 0 (some 2)) 3 2 (some 0) = volSmall :=
  claim_C8 volSmall 3 (by decide) 0 2

/-- Claim C10: the result of read_img on a single file does not depend on
the globber argument, and its result on a directory does not depend on
the header and allow_default_affine arguments. -/
theorem claim_C10 {α : Type} (f : α) (dcmread : α → Dataset) (header : Bool)
    (channels_axis : Option Nat) (g1 g2 : String) (ada : Bool)
    (listFiles : String → List α) (nm : String) (h1 h2 : Bool) (g : String)
    (ada1 ada2 : Bool) :
    read_img (.file f) dcmread header channels_axis g1 ada =
      read_img (.file f) dcmread header channels_axis g2 ada ∧
    read_img (.dir listFiles nm) dcmread h1 channels_axis g ada1 =
      read_img (.dir listFiles nm) dcmread h2 channels_axis g ada2 :=
  ⟨rfl, rfl⟩

/-- Claim C3: a directory read whose glob matches no file fails with the
empty-input error carrying the empty-directory message, and the result
does not depend on the parser, so no dataset is parsed. -/
theorem claim_C3 {α : Type} (listFiles : String → List α) (nm : String)
    (dcmread dcmread2 : α → Dataset) (header : Bool) (channels_axis : Option Nat)
    (globber : String) (ada : Bool) (hempty : listFiles globber = []) :
    read_img (.dir listFiles nm) dcmread header channels_axis globber ada =
      .error (.emptyInput ("Received an empty directory: " ++ nm)) ∧
    read_img (.dir listFiles nm) dcmread header channels_axis globber ada =
      read_img (.dir listFiles nm) dcmread2 header channels_axis globber ada := by
  constructor <;> simp [read_img, read_dcm_dir, hempty]

/-- Witness for claim C3 at a concrete empty directory. -/
theorem claim_C3_witness :
    read_img (.dir (fun _ => ([] : List Dataset)) "emptydir") id false none "glob" false =
      .error (.emptyInput ("Received an empty directory: " ++ "emptydir")) :=
  (claim_C3 (fun _ => ([] : List Dataset)) "emptydir" id id false none "glob" false rfl).1

/-- Claim C9: a single-file read attaches the header snapshot (all parsed
tag entries with stringified keys) exactly when the header argument is
true, and a directory read never populates the header, whatever the
header argument. -/
theorem claim_C9 {α : Type} (f : α) (dcmread : α → Dataset) (channels_axis : Option Nat)
    (globber : String) (ada : Bool) (listFiles : String → List α) (nm : String)
    (header : Bool) :
    ((read_img (.file f) dcmread true channels_axis globber ada).map (fun r => r.2.header) =
      (read_img (.file f) dcmread true channels_axis globber ada).map
        (fun _ => some (headerSnapshot (dcmread f)))) ∧
    ((read_img (.file f) dcmread false channels_axis globber ada).map (fun r => r.2.header) =
      (read_img (.file f) dcmread false channels_axis globber ada).map (fun _ => none)) ∧
    ((read_img (.dir listFiles nm) dcmread header channels_axis globber ada).map
        (fun r => r.2.header) =
      (read_img (.dir listFiles nm) dcmread header channels_axis globber ada).map
        (fun _ => none)) := by
  refine ⟨?_, ?_, ?_⟩
  · simp only [read_img, read_dcm_file]
    cases (if classify (dcmread f) = .MultiFrame then unpack_dataset (dcmread f) ada
           else combine_slices [dcmread f]) with
    | error e => rfl
    | ok p =>
      obtain ⟨img, aff⟩ := p
      dsimp only
      cases samplesPerPixelE (dcmread f) with
      | error e => rfl
      | ok spp => simp [Except.map, aff2meta]
  · simp only [read_img, read_dcm_file]
    cases (if classify (dcmread f) = .MultiFrame then unpack_dataset (dcmread f) ada
           else combine_slices [dcmread f]) with
    | error e => rfl
    | ok p =>
      obtain ⟨img, aff⟩ := p
      dsimp only
      cases samplesPerPixelE (dcmread f) with
      | error e => rfl
      | ok spp => simp [Except.map, aff2meta]
  · simp only [read_img, read_dcm_dir]
    by_cases h0 : (listFiles globber).length = 0
    · rw [if_pos h0]
      rfl
    · rw [if_neg h0]
      exact dirCombine_header _ _

/-- Claim C1 (amended): a directory read over a permutation of the same
file set returns the identical result provided the parsed datasets have
pairwise distinct instance-number keys; with duplicate keys the stable
sort preserves the enumeration order, so the result can differ. -/
theorem claim_C1_amended {α : Type} (L1 L2 : String → List α) (nm : String)
    (dcmread : α → Dataset) (header : Bool) (channels_axis : Option Nat)
    (globber : String) (ada : Bool)
    (hperm : List.Perm (L1 globber) (L2 globber))
    (hnodup : (((L1 globber).map dcmread).map instKey).Nodup) :
    read_img (.dir L1 nm) dcmread header channels_axis globber ada =
      read_img (.dir L2 nm) dcmread header channels_axis globber ada := by
  simp only [read_img, read_dcm_dir]
  have hlen := hperm.length_eq
  by_cases h0 : (L1 globber).length = 0
  · rw [if_pos h0, if_pos (by omega)]
  · rw [if_neg h0, if_neg (by omega)]
    rw [sortStable_canon instKey ((L1 globber).map dcmread) ((L2 globber).map dcmread)
      (hperm.map dcmread) hnodup]

/-- Witness for the amended claim C1: two enumeration orders of the same
two slices with distinct instance numbers give identical results. -/
theorem claim_C1_witness :
    read_img (.dir (fun _ => [sliceA, sliceC]) "series") id false none "all" false =
      read_img (.dir (fun _ => [sliceC, sliceA]) "series") id false none "all" false :=
  claim_C1_amended (fun _ => [sliceA, sliceC]) (fun _ => [sliceC, sliceA]) "series" id false
    none "all" false (List.Perm.swap sliceC sliceA []) (by decide)

/-- Counterexample to claim C1 as stated: two slices sharing instance
number 5 but lying at different positions; the two enumeration orders of
the same file set produce different results (the affines differ, because
the stable sort keeps the enumeration order of the tied slices). -/
theorem claim_C1_counterexample :
    read_img (.dir (fun _ => [sliceA, sliceB]) "series") id false none "all" false ≠
      read_img (.dir (fun _ => [sliceB, sliceA]) "series") id false none "all" false := by
  intro h
  have h2 := congrArg affineOf h
  revert h2
  norm_num +decide [read_img, read_dcm_dir, dirCombine, combine_slices, sortStable,
    insertStable, instKey, sliceInfo, sliceInfoList, sliceA, sliceB, Dataset.getTag,
    lookupTag, ratTriple, ratSix, ratPair, Dataset.getNatD, compatibleSlices,
    reconstructAffine, det3, smul3, sub3, cross3, aff2meta, samplesPerPixelE,
    move_channels_axis, affineOf, Affine.mk.injEq]

/-- Claim C2: a directory read combines the parsed datasets after the
stable ascending sort by the instance-number tag with default 0: the sort
is applied before the stacking stage, the sorted list is an ascending
permutation of the parsed datasets, equal keys keep their parse order,
datasets lacking the tag get key 0 and therefore precede every dataset
with a positive instance number, and a successful read stacks the sorted
slice pixel arrays along the new leading axis. -/
theorem claim_C2 {α : Type} (input_dir : String) (files : List α)
    (dcmread : α → Dataset) (channels_axis : Option Nat) (hne : files ≠ []) :
    read_dcm_dir input_dir files dcmread channels_axis =
      dirCombine (sortStable instKey (files.map dcmread)) channels_axis ∧
    (sortStable instKey (files.map dcmread)).Pairwise
      (fun x y => instKey x ≤ instKey y) ∧
    List.Perm (sortStable instKey (files.map dcmread)) (files.map dcmread) ∧
    (∀ k : Int,
      (sortStable instKey (files.map dcmread)).filter (fun x => decide (instKey x = k)) =
        (files.map dcmread).filter (fun x => decide (instKey x = k))) ∧
    (∀ ds : Dataset, ds.getTag .InstanceNumber = none → instKey ds = 0) ∧
    (∀ i j : Nat, ∀ hi : i < (sortStable instKey (files.map dcmread)).length,
      ∀ hj : j < (sortStable instKey (files.map dcmread)).length,
      ((sortStable instKey (files.map dcmread)).get ⟨i, hi⟩).getTag .InstanceNumber = none →
      0 < instKey ((sortStable instKey (files.map dcmread)).get ⟨j, hj⟩) → i < j) ∧
    (∀ v md, read_dcm_dir input_dir files dcmread channels_axis = .ok (v, md) →
      ∃ spp,
        samplesPerPixelE ((sortStable instKey (files.map dcmread)).headD default) =
          .ok spp ∧
        v = move_channels_axis
          (stackArrays ((sortStable instKey (files.map dcmread)).map slicePixelArray))
          spp 0 channels_axis) := by
  have hlen : ¬files.length = 0 := by
    intro h
    exact hne (List.length_eq_zero.mp h)
  have hmain : read_dcm_dir input_dir files dcmread channels_axis =
      dirCombine (sortStable instKey (files.map dcmread)) channels_axis := by
    simp only [read_dcm_dir, if_neg hlen]
  refine ⟨hmain, sortStable_pairwise _ _, sortStable_perm _ _,
    fun k => filter_sortStable _ _ k, ?_, ?_, ?_⟩
  · intro ds h
    simp [instKey, h]
  · intro i j hi hj hnone hpos
    by_contra hnot
    push_neg at hnot
    have hpw := sortStable_pairwise instKey (files.map dcmread)
    have hzero : instKey ((sortStable instKey (files.map dcmread)).get ⟨i, hi⟩) = 0 := by
      simp only [instKey, List.get_eq_getElem] at hnone ⊢
      rw [hnone]
    rcases Nat.lt_or_ge j i with hji | hij
    · have hle := List.pairwise_iff_get.mp hpw ⟨j, hj⟩ ⟨i, hi⟩ (Fin.mk_lt_mk.mpr hji)
      omega
    · have hij2 : i = j := by omega
      subst hij2
      have heq : ((sortStable instKey (files.map dcmread)).get ⟨i, hj⟩) =
          ((sortStable instKey (files.map dcmread)).get ⟨i, hi⟩) := rfl
      rw [heq] at hpos
      omega
  · intro v md h
    rw [hmain] at h
    exact dirCombine_ok_stack _ _ _ _ h

/-- Witness for claim C2 at a concrete one-file directory. -/
theorem claim_C2_witness :
    read_dcm_dir "series" [sliceA] id none =
      dirCombine (sortStable instKey ([sliceA].map id)) none :=
  (claim_C2 "series" [sliceA] id none (by simp)).1

theorem rescaleStage_preserves (ds : Dataset) (keep : Bool) (ds2 : Dataset) (t : Tag)
    (h : rescaleStage ds keep = .ok ds2)
    (hcond : keep = false → t ≠ .RescaleSlope ∧ t ≠ .RescaleIntercept) :
    ds2.getTag t = ds.getTag t := by
  cases keep with
  | true =>
    simp only [rescaleStage, if_pos] at h
    simp only [Except.ok.injEq] at h
    rw [← h]
  | false =>
    obtain ⟨hs, hi⟩ := hcond rfl
    simp only [rescaleStage, Bool.false_eq_true, if_false] at h
    by_cases hcl : classify ds = .MultiFrame
    · rw [if_pos hcl] at h
      simp only [Except.ok.injEq] at h
      rw [← h]
      unfold del_intensity_trans
      rw [getTag_removeAll_ne _ _ _ hi, getTag_removeAll_ne _ _ _ hs]
    · rw [if_neg hcl] at h
      cases hsl : ds.getTag .RescaleSlope with
      | none => simp [delTag, hsl] at h
      | some vs =>
        simp only [delTag, hsl] at h
        cases hin : (ds.removeAll .RescaleSlope).getTag .RescaleIntercept with
        | none => simp [hin] at h
        | some vi =>
          simp only [hin, Except.ok.injEq] at h
          rw [← h]
          rw [getTag_removeAll_ne _ _ _ hi, getTag_removeAll_ne _ _ _ hs]

theorem rescaleStage_pixelDtype (ds : Dataset) (keep : Bool) (ds2 : Dataset)
    (h : rescaleStage ds keep = .ok ds2) :
    datasetPixelDtype ds2 = datasetPixelDtype ds := by
  cases keep with
  | true =>
    simp only [rescaleStage, if_pos] at h
    simp only [Except.ok.injEq] at h
    rw [← h]
  | false =>
    simp only [rescaleStage, Bool.false_eq_true, if_false] at h
    by_cases hcl : classify ds = .MultiFrame
    · rw [if_pos hcl] at h
      simp only [Except.ok.injEq] at h
      rw [← h]
      unfold del_intensity_trans
      rw [datasetPixelDtype_removeAll _ _ (by decide) (by decide) (by decide),
        datasetPixelDtype_removeAll _ _ (by decide) (by decide) (by decide)]
    · rw [if_neg hcl] at h
      cases hsl : ds.getTag .RescaleSlope with
      | none => simp [delTag, hsl] at h
      | some vs =>
        simp only [delTag, hsl] at h
        cases hin : (ds.removeAll .RescaleSlope).getTag .RescaleIntercept with
        | none => simp [hin] at h
        | some vi =>
          simp only [hin, Except.ok.injEq] at h
          rw [← h]
          rw [datasetPixelDtype_removeAll _ _ (by decide) (by decide) (by decide),
            datasetPixelDtype_removeAll _ _ (by decide) (by decide) (by decide)]

/-- Claim C4: on a single-frame template, the write with keep_rescale
false removes both rescale tags and fails with the missing-tag error when
either is absent, and with keep_rescale true no tag is removed. -/
theorem claim_C4 (template : Dataset) (img_arr : NpArray)
    (hsf : classify template = .SingleFrame) :
    (∀ d : DType, template.getTag .RescaleSlope ≠ none →
      template.getTag .RescaleIntercept ≠ none →
      ∃ out, save_arr2dcm_file template img_arr (some d) false = .ok out ∧
        out.getTag .RescaleSlope = none ∧ out.getTag .RescaleIntercept = none) ∧
    (template.getTag .RescaleSlope = none → ∀ dt : Option DType,
      save_arr2dcm_file template img_arr dt false =
        .error (.missingTag .RescaleSlope)) ∧
    (template.getTag .RescaleSlope ≠ none → template.getTag .RescaleIntercept = none →
      ∀ dt : Option DType,
      save_arr2dcm_file template img_arr dt false =
        .error (.missingTag .RescaleIntercept)) ∧
    (∀ d : DType, ∃ out, save_arr2dcm_file template img_arr (some d) true = .ok out ∧
      ∀ t : Tag, t ≠ .PixelData → out.getTag t = template.getTag t) := by
  have hnmf : ¬classify template = .MultiFrame := by
    rw [hsf]
    intro h
    exact absurd h (by decide)
  refine ⟨?_, ?_, ?_, ?_⟩
  · intro d h1 h2
    obtain ⟨vs, hvs⟩ := Option.ne_none_iff_exists'.mp h1
    obtain ⟨vi, hvi⟩ := Option.ne_none_iff_exists'.mp h2
    have hint : (template.removeAll .RescaleSlope).getTag .RescaleIntercept = some vi := by
      rw [getTag_removeAll_ne _ _ _ (by decide)]
      exact hvi
    refine ⟨((template.removeAll .RescaleSlope).removeAll .RescaleIntercept).setTag
      .PixelData (.bytesVal ((img_arr.astype d).tobytes)), ?_, ?_, ?_⟩
    · simp [save_arr2dcm_file, rescaleStage, dtypeStage, hnmf, delTag, hvs, hint]
    · rw [getTag_setTag_ne _ _ _ _ (by decide), getTag_removeAll_ne _ _ _ (by decide)]
      exact getTag_removeAll_self _ _
    · rw [getTag_setTag_ne _ _ _ _ (by decide)]
      exact getTag_removeAll_self _ _
  · intro h1 dt
    simp [save_arr2dcm_file, rescaleStage, hnmf, delTag, h1]
  · intro h1 h2 dt
    obtain ⟨vs, hvs⟩ := Option.ne_none_iff_exists'.mp h1
    have hint : (template.removeAll .RescaleSlope).getTag .RescaleIntercept = none := by
      rw [getTag_removeAll_ne _ _ _ (by decide)]
      exact h2
    simp [save_arr2dcm_file, rescaleStage, hnmf, delTag, hvs, hint]
  · intro d
    refine ⟨template.setTag .PixelData (.bytesVal ((img_arr.astype d).tobytes)), ?_, ?_⟩
    · simp [save_arr2dcm_file, rescaleStage, dtypeStage]
    · intro t ht
      exact getTag_setTag_ne _ _ _ _ ht

/-- Witness for claim C4 at concrete templates. -/
theorem claim_C4_witness :
    (∃ out, save_arr2dcm_file tmplFull arrSmall (some .uint8) false = .ok out ∧
      out.getTag .RescaleSlope = none ∧ out.getTag .RescaleIntercept = none) ∧
    (∀ dt : Option DType, save_arr2dcm_file tmplNoSlope arrSmall dt false =
      .error (.missingTag .RescaleSlope)) ∧
    (∀ dt : Option DType, save_arr2dcm_file tmplNoIntercept arrSmall dt false =
      .error (.missingTag .RescaleIntercept)) ∧
    (∃ out, save_arr2dcm_file tmplFull arrSmall (some .uint8) true = .ok out ∧
      ∀ t : Tag, t ≠ .PixelData → out.getTag t = tmplFull.getTag t) :=
  ⟨(claim_C4 tmplFull arrSmall rfl).1 .uint8 (by decide) (by decide),
   (claim_C4 tmplNoSlope arrSmall rfl).2.1 (by decide),
   (claim_C4 tmplNoIntercept arrSmall rfl).2.2.1 (by decide) (by decide),
   (claim_C4 tmplFull arrSmall rfl).2.2.2 .uint8⟩

/-- Claim C5: a successful write leaves every tag of the template other
than the pixel data and, when keep_rescale is false, the removed rescale
tags unchanged in the output dataset. -/
theorem claim_C5 (template : Dataset) (img_arr : NpArray) (dtype : Option DType)
    (keep_rescale : Bool) (t : Tag) (hp : t ≠ .PixelData)
    (hr : keep_rescale = false → t ≠ .RescaleSlope ∧ t ≠ .RescaleIntercept) :
    (save_arr2dcm_file template img_arr dtype keep_rescale).map (fun out => out.getTag t) =
      (save_arr2dcm_file template img_arr dtype keep_rescale).map
        (fun _ => template.getTag t) := by
  cases hrs : rescaleStage template keep_rescale with
  | error e => simp [save_arr2dcm_file, hrs, Except.map]
  | ok ds2 =>
    have hpres : ds2.getTag t = template.getTag t :=
      rescaleStage_preserves template keep_rescale ds2 t hrs hr
    cases hdt : dtypeStage ds2 dtype with
    | error e => simp [save_arr2dcm_file, hrs, hdt, Except.map]
    | ok d =>
      simp only [save_arr2dcm_file, hrs, hdt, Except.map]
      rw [getTag_setTag_ne _ _ _ _ hp, hpres]

/-- Witness for claim C5 at a concrete template and tag. -/
theorem claim_C5_witness :
    (save_arr2dcm_file tmplFull arrSmall (some .uint8) false).map
        (fun out => out.getTag (.Other "PatientName")) =
      (save_arr2dcm_file tmplFull arrSmall (some .uint8) false).map
        (fun _ => tmplFull.getTag (.Other "PatientName")) :=
  claim_C5 tmplFull arrSmall (some .uint8) false (.Other "PatientName") (by decide)
    (fun _ => ⟨by decide, by decide⟩)

/-- Claim C6: a successful write substitutes exactly the raw byte buffer
of the image array cast to the caller-supplied dtype, or to the
pixel-data dtype of the template when none is supplied, and the cast keeps the
shape and maps the buffer elementwise in order. -/
theorem claim_C6 (template : Dataset) (img_arr : NpArray) (keep_rescale : Bool) :
    (∀ d : DType,
      (save_arr2dcm_file template img_arr (some d) keep_rescale).map
          (fun out => out.getTag .PixelData) =
        (save_arr2dcm_file template img_arr (some d) keep_rescale).map
          (fun _ => some (.bytesVal ((img_arr.astype d).tobytes)))) ∧
    (∀ d : DType, datasetPixelDtype template = .ok d →
      (save_arr2dcm_file template img_arr none keep_rescale).map
          (fun out => out.getTag .PixelData) =
        (save_arr2dcm_file template img_arr none keep_rescale).map
          (fun _ => some (.bytesVal ((img_arr.astype d).tobytes)))) ∧
    (∀ d : DType, (img_arr.astype d).shape = img_arr.shape ∧
      (img_arr.astype d).data = img_arr.data.map (dtypeWrap d) ∧
      (img_arr.astype d).data.length = img_arr.data.length ∧
      (∀ i : Nat, i < img_arr.data.length →
        (img_arr.astype d).data.getD i 0 = dtypeWrap d (img_arr.data.getD i 0))) := by
  refine ⟨?_, ?_, ?_⟩
  · intro d
    cases hrs : rescaleStage template keep_rescale with
    | error e => simp [save_arr2dcm_file, hrs, Except.map]
    | ok ds2 =>
      simp only [save_arr2dcm_file, hrs, dtypeStage, Except.map]
      rw [getTag_setTag_self]
  · intro d hd
    cases hrs : rescaleStage template keep_rescale with
    | error e => simp [save_arr2dcm_file, hrs, Except.map]
    | ok ds2 =>
      have hdt : dtypeStage ds2 none = .ok d := by
        unfold dtypeStage
        rw [rescaleStage_pixelDtype template keep_rescale ds2 hrs]
        exact hd
      simp only [save_arr2dcm_file, hrs, hdt, Except.map]
      rw [getTag_setTag_self]
  · intro d
    refine ⟨rfl, rfl, by simp [NpArray.astype], ?_⟩
    intro i hi
    exact getD_map_lt (dtypeWrap d) img_arr.data i hi

/-- Witness for claim C6 at a concrete template and array. -/
theorem claim_C6_witness :
    ((save_arr2dcm_file tmplFull arrSmall (some .int16) false).map
        (fun out => out.getTag .PixelData) =
      (save_arr2dcm_file tmplFull arrSmall (some .int16) false).map
        (fun _ => some (.bytesVal ((arrSmall.astype .int16).tobytes)))) ∧
    ((save_arr2dcm_file tmplFull arrSmall none false).map
        (fun out => out.getTag .PixelData) =
      (save_arr2dcm_file tmplFull arrSmall none false).map
        (fun _ => some (.bytesVal ((arrSmall.astype .uint8).tobytes)))) :=
  ⟨(claim_C6 tmplFull arrSmall false).1 .int16,
   (claim_C6 tmplFull arrSmall false).2.1 .uint8 rfl⟩

end Pdcm
